import Mathlib

/-!
Verification of the HAMedicationTracker dosing and scheduling engine.

The repository ships two dashboard cards (`medication-card.js`,
`sick-mode-card.js`) that call into the engine; the engine itself
(DoseLedger, TimeWindowCalculator, SafetyLimitEvaluator,
AlternatingScheduleResolver, TemperatureMonitor, SchedulingEngine) is
described by the specification but its implementation is not part of the
shipped sources, so those components are modelled from the spec below.
Card-side logic (fever highlighting, `setConfig` validation, schedule
rendering) is translated directly from the JavaScript sources.

Instants and durations are integer seconds on one canonical clock;
temperature values are exact rationals.
-/

namespace MedTracker

/-- An instant or a duration, in whole seconds on the single canonical clock. -/
abbrev Time := Int

/-- Modelled from the spec: DoseRecord — id, medication_id, timestamp, amount,
unit; immutable once created. -/
structure DoseRecord where
  id : Nat
  medication_id : String
  timestamp : Time
  amount : Rat
  unit : String
deriving Repr, DecidableEq

/-- Modelled from the spec: Medication — id, patient_id, name, dosage_amount,
dosage_unit, interval, window_duration + max_doses_in_window (safety rule, both
required together), optional rotation_group_id, optional min_gap_with_group,
active flag. -/
structure Medication where
  id : String
  patient_id : String
  name : String
  dosage_amount : Rat
  dosage_unit : String
  interval : Time
  window_duration : Option Time
  max_doses_in_window : Option Nat
  rotation_group_id : Option String
  min_gap_with_group : Option Time
  active : Bool
deriving Repr, DecidableEq

/-! ## TemperatureMonitor (modelled from the spec, section 4.5) -/

/-- The unit a temperature reading was taken in. -/
inductive TempUnit where
  | celsius
  | fahrenheit
deriving Repr, DecidableEq

/-- Modelled from the spec: TemperatureReading — id, patient_id, value, unit,
timestamp; immutable once created. -/
structure TemperatureReading where
  id : Nat
  patient_id : String
  value : Rat
  unit : TempUnit
  timestamp : Time
deriving Repr, DecidableEq

/-- Modelled from the spec: fever severity levels of section 4.5. -/
inductive FeverLevel where
  | NORMAL
  | ELEVATED
  | FEVER
  | HIGH_FEVER
deriving Repr, DecidableEq

/-- Modelled from the spec: `normalize(reading)` converts Fahrenheit to
Celsius using C = (F - 32) * 5/9; Celsius readings pass through. -/
def normalize (r : TemperatureReading) : Rat :=
  match r.unit with
  | .celsius => r.value
  | .fahrenheit => (r.value - 32) * 5 / 9

/-- Modelled from the spec: fever thresholds in Celsius — below 37.5 NORMAL,
[37.5, 38.0) ELEVATED, [38.0, 39.5) FEVER, at or above 39.5 HIGH_FEVER. -/
def classifyFever (c : Rat) : FeverLevel :=
  if c < (37.5 : Rat) then .NORMAL
  else if c < (38 : Rat) then .ELEVATED
  else if c < (39.5 : Rat) then .FEVER
  else .HIGH_FEVER

/-- Modelled from the spec: a reading is in a fever state when its
classification after normalization is FEVER or above. -/
def specIsFever (r : TemperatureReading) : Bool :=
  match classifyFever (normalize r) with
  | .FEVER => true
  | .HIGH_FEVER => true
  | _ => false

/-- From `sick-mode-card.js` (and the identical check in
`medication-card.js`): a reading is highlighted as fever when
`(unit === '°C' && value >= 38) || (unit === '°F' && value >= 100.4)`;
the comparison is made on the raw value in its own unit. -/
def cardIsFever (unit : String) (value : Rat) : Bool :=
  (unit == "°C" && decide ((38 : Rat) ≤ value)) ||
    (unit == "°F" && decide ((100.4 : Rat) ≤ value))

end MedTracker

namespace MedTracker

/-- Abbreviation for a concrete Celsius reading, used in boundary checks. -/
def cReading (v : Rat) : TemperatureReading :=
  { id := 0, patient_id := "p", value := v, unit := .celsius, timestamp := 0 }

/-- Abbreviation for a concrete Fahrenheit reading, used in boundary checks. -/
def fReading (v : Rat) : TemperatureReading :=
  { id := 0, patient_id := "p", value := v, unit := .fahrenheit, timestamp := 0 }

end MedTracker

namespace MedTracker

/-! ## DoseLedger (modelled from the spec, section 4.1) -/

/-- Modelled from the spec: the idempotency epsilon, default 1 second. -/
def idempotencyEpsilon : Nat := 1

/-- Modelled from the spec: the only append failure of the dose ledger. -/
inductive AppendError where
  | DuplicateDose
deriving Repr, DecidableEq

/-- A dose ledger is the append-only ordered history of administered doses,
oldest first; insertion order is the creation sequence. -/
abbrev DoseLedger := List DoseRecord

/-- Modelled from the spec: an existing record for the same medication whose
timestamp lies within the idempotency epsilon of the new one. -/
def hasDuplicate (ledger : DoseLedger) (d : DoseRecord) : Bool :=
  ledger.any (fun r =>
    r.medication_id == d.medication_id &&
      (r.timestamp - d.timestamp).natAbs ≤ idempotencyEpsilon)

/-- Modelled from the spec: `append(dose)` fails with DuplicateDose on an
idempotency match and otherwise adds the record at the end of the history. -/
def ledgerAppend (ledger : DoseLedger) (d : DoseRecord) :
    Except AppendError DoseLedger :=
  if hasDuplicate ledger d then .error .DuplicateDose
  else .ok (ledger ++ [d])

/-- One step of the last-dose scan: a record of the queried medication
replaces the best-so-far when its timestamp is at least as late (so a
timestamp tie is broken by creation sequence, the later-inserted record
winning); records of other medications are skipped. -/
def lastDoseStep (mid : String) (acc : Option DoseRecord)
    (r : DoseRecord) : Option DoseRecord :=
  if r.medication_id == mid then
    match acc with
    | none => some r
    | some b => if b.timestamp ≤ r.timestamp then some r else some b
  else acc

/-- Modelled from the spec: `last_dose(medication_id)` returns the most recent
record for that medication or none. -/
def lastDose (ledger : DoseLedger) (mid : String) : Option DoseRecord :=
  ledger.foldl (lastDoseStep mid) none

/-! ## TimeWindowCalculator (modelled from the spec, section 4.2) -/

/-- The availability part of a per-medication result. -/
structure Availability where
  available_now : Bool
  next_time : Option Time
deriving Repr, DecidableEq

/-- Modelled from the spec: `next_eligible_time(medication, ledger, now)` —
with no prior dose the medication is available now with a null next time;
otherwise next_time is the last dose's timestamp plus the medication's
interval and available_now holds when next_time has been reached. -/
def nextEligibleTime (med : Medication) (ledger : DoseLedger) (now : Time) :
    Availability :=
  match lastDose ledger med.id with
  | none => { available_now := true, next_time := none }
  | some d =>
      let t := d.timestamp + med.interval
      { available_now := decide (t ≤ now), next_time := some t }

/-- Modelled from the spec: `count_in_window(medication, ledger, now)` counts
the medication's doses with timestamp within [now - window_duration, now];
with no window rule the count is not used and is taken as 0. -/
def countInWindow (med : Medication) (ledger : DoseLedger) (now : Time) : Nat :=
  match med.window_duration with
  | none => 0
  | some w =>
      (ledger.filter (fun r =>
        r.medication_id == med.id &&
          decide (now - w ≤ r.timestamp) && decide (r.timestamp ≤ now))).length

/-! ## SafetyLimitEvaluator (modelled from the spec, section 4.3) -/

/-- Modelled from the spec: the advisory safety classifications. -/
inductive SafetyLevel where
  | OK
  | APPROACHING_LIMIT
  | AT_LIMIT
  | EXCEEDED
deriving Repr, DecidableEq

/-- Modelled from the spec: with no window rule the result is always OK;
otherwise, over count = count_in_window, `count < max - 1` is OK (written
`count + 1 < max` so that natural subtraction cannot differ from the integer
guard), `count = max - 1` is APPROACHING_LIMIT, and at `count ≥ max` a
hypothetical dose right now is AT_LIMIT while a dose already recorded beyond
the limit (count strictly above max) is EXCEEDED. -/
def classifySafety (med : Medication) (ledger : DoseLedger) (now : Time) :
    SafetyLevel :=
  match med.window_duration, med.max_doses_in_window with
  | some _, some maxDoses =>
      let count := countInWindow med ledger now
      if count + 1 < maxDoses then .OK
      else if count + 1 = maxDoses then .APPROACHING_LIMIT
      else if count = maxDoses then .AT_LIMIT
      else .EXCEEDED
  | _, _ => .OK

/-! ## AlternatingScheduleResolver (modelled from the spec, section 4.4) -/

/-- Modelled from the spec: the gap to respect between a dose of M and a dose
of another group member N is the stricter (larger) of the two directions'
configured `min_gap_with_group` values. -/
def pairGap (m n : Medication) : Time :=
  max (m.min_gap_with_group.getD 0) (n.min_gap_with_group.getD 0)

/-- Modelled from the spec: the other active medications sharing M's rotation
group for the same patient. -/
def groupMembers (config : List Medication) (m : Medication) :
    List Medication :=
  config.filter (fun n =>
    n.id != m.id && n.active && n.patient_id == m.patient_id &&
      n.rotation_group_id == m.rotation_group_id)

/-- Modelled from the spec: for every other active group member N with a last
dose at t_N, the candidate floor t_N + min_gap_with_group(M, N). -/
def candidateFloors (config : List Medication) (m : Medication)
    (ledger : DoseLedger) : List Time :=
  (groupMembers config m).filterMap
    (fun n => (lastDose ledger n.id).map (fun d => d.timestamp + pairGap m n))

/-- Running maximum of a list of instants over an optional starting point;
none means no constraint at all. -/
def foldMaxTime (init : Option Time) (ts : List Time) : Option Time :=
  ts.foldl
    (fun acc t =>
      match acc with
      | none => some t
      | some a => some (max a t))
    init

/-- Modelled from the spec: `next_time(M) = max(t_own, all candidate floors)`
and `available_now = next_time(M) ≤ now` (no constraint at all means
available now with a null next time). -/
def resolveNextTime (config : List Medication) (m : Medication)
    (ledger : DoseLedger) (now : Time) : Availability :=
  match foldMaxTime (nextEligibleTime m ledger now).next_time
      (candidateFloors config m ledger) with
  | none => { available_now := true, next_time := none }
  | some t => { available_now := decide (t ≤ now), next_time := some t }

/-! ## SchedulingEngine (modelled from the spec, section 4.6) -/

/-- Modelled from the spec: availability uses the plain time-window result
for an ungrouped medication and the rotation-aware resolver for a grouped
one. -/
def medAvailability (config : List Medication) (m : Medication)
    (ledger : DoseLedger) (now : Time) : Availability :=
  match m.rotation_group_id with
  | none => nextEligibleTime m ledger now
  | some _ => resolveNextTime config m ledger now

/-- Modelled from the spec: the per-medication read model
{available_now, next_time, safety_level, last_dose_time, last_dose_amount}. -/
structure ScheduleResult where
  available_now : Bool
  next_time : Option Time
  safety_level : SafetyLevel
  last_dose_time : Option Time
  last_dose_amount : Option Rat
deriving Repr, DecidableEq

/-- Modelled from the spec: the result computed for one medication, always
derived fresh from ledger state. -/
def scheduleResultFor (config : List Medication) (m : Medication)
    (ledger : DoseLedger) (now : Time) : ScheduleResult :=
  { available_now := (medAvailability config m ledger now).available_now
    next_time := (medAvailability config m ledger now).next_time
    safety_level := classifySafety m ledger now
    last_dose_time := (lastDose ledger m.id).map (fun d => d.timestamp)
    last_dose_amount := (lastDose ledger m.id).map (fun d => d.amount) }

/-- Modelled from the spec: `get_schedule(patient_id)` maps every active
medication of the patient to its ScheduleResult. -/
def getSchedule (config : List Medication) (patient : String)
    (ledger : DoseLedger) (now : Time) : List (String × ScheduleResult) :=
  (config.filter (fun m => m.patient_id == patient && m.active)).map
    (fun m => (m.id, scheduleResultFor config m ledger now))

end MedTracker
namespace MedTracker

/-! ## Card-side logic (from the JavaScript sources) -/

/-- A card configuration as the cards inspect it: the fields either card
reads in `setConfig`, each possibly absent. -/
structure CardConfig where
  patient_id : Option String
  title : Option String
deriving Repr, DecidableEq

/-- JavaScript truthiness of a string-valued property: an absent property and
the empty string are falsy, every other string is truthy. -/
def truthyStr : Option String → Bool
  | none => false
  | some s => !(s == "")

/-- Outcome of a `setConfig` call: the configuration stored afterwards (the
previous one when the call throws) and the thrown message, if any. -/
structure SetConfigResult where
  stored : Option CardConfig
  error : Option String
deriving Repr, DecidableEq

/-- From `sick-mode-card.js` `setConfig`: throw "Invalid configuration" on a
missing configuration, throw "Please specify a patient_id" when
`config.patient_id` is falsy, otherwise store the configuration. -/
def sickModeSetConfig (stored : Option CardConfig)
    (config : Option CardConfig) : SetConfigResult :=
  match config with
  | none => { stored := stored, error := some "Invalid configuration" }
  | some c =>
      if truthyStr c.patient_id then { stored := some c, error := none }
      else { stored := stored, error := some "Please specify a patient_id" }

/-- From `medication-card.js` `setConfig`: throw "Invalid configuration" on a
missing configuration, otherwise store it; no patient_id check. -/
def medicationTrackerSetConfig (stored : Option CardConfig)
    (config : Option CardConfig) : SetConfigResult :=
  match config with
  | none => { stored := stored, error := some "Invalid configuration" }
  | some c => { stored := some c, error := none }

/-- The `nextDose` object of a medication in the sick-mode card's patient
data. -/
structure NextDose where
  available_now : Bool
  next_time : Option Time
deriving Repr, DecidableEq

/-- A medication entry of the sick-mode card's patient data. -/
structure CardMedication where
  id : String
  name : String
  dosage : String
  unit : String
  nextDose : NextDose
deriving Repr, DecidableEq

/-- One row pushed onto the schedule by `_renderMedicationSchedule`. -/
structure ScheduleItem where
  time : Time
  medication : String
  dosage : String
deriving Repr, DecidableEq

/-- The three shapes `_renderMedicationSchedule` can produce: the
"No medications scheduled" placeholder, the "All medications available now"
placeholder, and the sorted schedule grid. -/
inductive ScheduleRender where
  | noMeds
  | allAvailable
  | schedule (items : List ScheduleItem)
deriving Repr, DecidableEq

/-- From `sick-mode-card.js` `_renderMedicationSchedule`: one row is pushed
per medication whose `nextDose.next_time` is non-null, in the medications'
order. -/
def scheduleRows (meds : List CardMedication) : List ScheduleItem :=
  meds.filterMap (fun med =>
    med.nextDose.next_time.map (fun t =>
      { time := t, medication := med.name,
        dosage := med.dosage ++ " " ++ med.unit }))

/-- The rows of `scheduleRows` sorted ascending by time; the JavaScript
comparator `a.time - b.time` sorts ascending and `Array.prototype.sort` is
stable, as is `mergeSort`. -/
def sortedScheduleRows (meds : List CardMedication) : List ScheduleItem :=
  (scheduleRows meds).mergeSort (fun a b => decide (a.time ≤ b.time))

/-- From `sick-mode-card.js` `_renderMedicationSchedule`: render the no-data
placeholder with no medications, the "all available" placeholder when no
medication contributed a row, and the sorted schedule grid otherwise. -/
def renderMedicationSchedule (meds : List CardMedication) : ScheduleRender :=
  if meds.isEmpty then .noMeds
  else if (sortedScheduleRows meds).isEmpty then .allAvailable
  else .schedule (sortedScheduleRows meds)

/-! ## Concrete instances used in boundary checks -/

/-- A medication with the spec's example safety rule: a 24-hour window with
at most 4 doses, interval 4 hours. -/
def exMedSafety : Medication :=
  { id := "tylenol", patient_id := "p1", name := "Tylenol",
    dosage_amount := 10, dosage_unit := "mL", interval := 14400,
    window_duration := some 86400, max_doses_in_window := some 4,
    rotation_group_id := none, min_gap_with_group := none, active := true }

/-- A dose of `exMedSafety` with a given creation sequence number and
timestamp. -/
def exDose (n : Nat) (t : Time) : DoseRecord :=
  { id := n, medication_id := "tylenol", timestamp := t,
    amount := 10, unit := "mL" }

/-- Three doses inside the trailing 24-hour window before instant 100000. -/
def exLedger3 : DoseLedger := [exDose 1 90000, exDose 2 93000, exDose 3 96000]

/-- A fourth dose inside the same window. -/
def exLedger4 : DoseLedger := exLedger3 ++ [exDose 4 99000]

/-- A fifth dose inside the same window. -/
def exLedger5 : DoseLedger := exLedger4 ++ [exDose 5 99990]

/-- Rotation example: medication A, interval 4 h, group gap 3 h. -/
def medA : Medication :=
  { id := "A", patient_id := "p1", name := "Tylenol",
    dosage_amount := 10, dosage_unit := "mL", interval := 14400,
    window_duration := none, max_doses_in_window := none,
    rotation_group_id := some "g", min_gap_with_group := some 10800,
    active := true }

/-- Rotation example: medication B, interval 4 h, group gap 3 h. -/
def medB : Medication :=
  { id := "B", patient_id := "p1", name := "Ibuprofen",
    dosage_amount := 5, dosage_unit := "mL", interval := 14400,
    window_duration := none, max_doses_in_window := none,
    rotation_group_id := some "g", min_gap_with_group := some 10800,
    active := true }

/-- A dosed at 08:00 (28800 s after midnight). -/
def doseA : DoseRecord :=
  { id := 1, medication_id := "A", timestamp := 28800, amount := 10,
    unit := "mL" }

/-- B dosed at 09:00 (32400 s after midnight). -/
def doseB : DoseRecord :=
  { id := 2, medication_id := "B", timestamp := 32400, amount := 5,
    unit := "mL" }

/-- The two-medication rotation configuration. -/
def exConfigAB : List Medication := [medA, medB]

/-- The rotation example's ledger. -/
def exLedgerAB : DoseLedger := [doseA, doseB]

/-- An ungrouped medication with a 4-hour interval and no window rule. -/
def medU : Medication :=
  { id := "U", patient_id := "p1", name := "Plain",
    dosage_amount := 10, dosage_unit := "mL", interval := 14400,
    window_duration := none, max_doses_in_window := none,
    rotation_group_id := none, min_gap_with_group := none, active := true }

/-- A dose of `medU` at 08:00. -/
def doseU : DoseRecord :=
  { id := 1, medication_id := "U", timestamp := 28800, amount := 10,
    unit := "mL" }

/-- A medication whose window rule allows a single dose per 24-hour window:
a configuration the spec's invariant (max_doses_in_window at least 1)
permits. -/
def medWin1 : Medication :=
  { id := "once", patient_id := "p1", name := "OnceDaily",
    dosage_amount := 10, dosage_unit := "mL", interval := 3600,
    window_duration := some 86400, max_doses_in_window := some 1,
    rotation_group_id := none, min_gap_with_group := none, active := true }

/-- Sick-mode card medications for the schedule-rendering checks: two with a
pending next time (given out of order) and one available now. -/
def exCardMeds : List CardMedication :=
  [ { id := "m2", name := "Ibuprofen", dosage := "5", unit := "mL",
      nextDose := { available_now := false, next_time := some 46800 } },
    { id := "m1", name := "Tylenol", dosage := "10", unit := "mL",
      nextDose := { available_now := false, next_time := some 43200 } },
    { id := "m3", name := "Amoxicillin", dosage := "7", unit := "mL",
      nextDose := { available_now := true, next_time := none } } ]

/-- Sick-mode card medications all available now (null next times). -/
def exCardMedsAllAvail : List CardMedication :=
  [ { id := "m1", name := "Tylenol", dosage := "10", unit := "mL",
      nextDose := { available_now := true, next_time := none } },
    { id := "m2", name := "Ibuprofen", dosage := "5", unit := "mL",
      nextDose := { available_now := true, next_time := none } } ]

end MedTracker

namespace MedTracker

theorem classifyFever_iff (c : Rat) :
    (classifyFever c = .NORMAL ↔ c < 37.5) ∧
    (classifyFever c = .ELEVATED ↔ (37.5 ≤ c ∧ c < 38)) ∧
    (classifyFever c = .FEVER ↔ (38 ≤ c ∧ c < 39.5)) ∧
    (classifyFever c = .HIGH_FEVER ↔ 39.5 ≤ c) := by
  unfold classifyFever
  split_ifs with h1 h2 h3 <;>
    refine ⟨?_, ?_, ?_, ?_⟩ <;> simp <;>
    first
      | linarith
      | (constructor <;> linarith)
      | (intro h; linarith)

theorem specIsFever_iff (r : TemperatureReading) :
    specIsFever r = true ↔ (38 : Rat) ≤ normalize r := by
  have h := classifyFever_iff (normalize r)
  unfold specIsFever
  rcases hc : classifyFever (normalize r) with _ | _ | _ | _
  · have := h.1.mp hc
    simp only [Bool.false_eq_true, false_iff]
    intro hge; linarith
  · have := h.2.1.mp hc
    simp only [Bool.false_eq_true, false_iff]
    intro hge; linarith
  · have := h.2.2.1.mp hc
    simp only [true_iff]
    linarith [this.1]
  · have := h.2.2.2.mp hc
    simp only [true_iff]
    linarith

/-- C5: after normalization to Celsius the classification is NORMAL below
37.5, ELEVATED on [37.5, 38), FEVER on [38, 39.5), HIGH_FEVER at or above
39.5; a reading is in a fever state exactly when its Celsius value is at
least 38; in particular 37.99 °C and 100.3 °F classify ELEVATED (not fever)
while 38.00 °C and 100.4 °F classify FEVER. -/
theorem fever_classification_spec :
    (∀ r : TemperatureReading,
      (classifyFever (normalize r) = .NORMAL ↔ normalize r < 37.5) ∧
      (classifyFever (normalize r) = .ELEVATED ↔
        (37.5 ≤ normalize r ∧ normalize r < 38)) ∧
      (classifyFever (normalize r) = .FEVER ↔
        (38 ≤ normalize r ∧ normalize r < 39.5)) ∧
      (classifyFever (normalize r) = .HIGH_FEVER ↔ 39.5 ≤ normalize r) ∧
      (specIsFever r = true ↔ (38 : Rat) ≤ normalize r)) ∧
    classifyFever (normalize (cReading 37.99)) = .ELEVATED ∧
    classifyFever (normalize (fReading 100.3)) = .ELEVATED ∧
    classifyFever (normalize (cReading 38)) = .FEVER ∧
    classifyFever (normalize (fReading 100.4)) = .FEVER ∧
    specIsFever (cReading 37.99) = false ∧
    specIsFever (fReading 100.3) = false ∧
    specIsFever (cReading 38) = true ∧
    specIsFever (fReading 100.4) = true := by
  have hgen : ∀ r : TemperatureReading,
      (classifyFever (normalize r) = .NORMAL ↔ normalize r < 37.5) ∧
      (classifyFever (normalize r) = .ELEVATED ↔
        (37.5 ≤ normalize r ∧ normalize r < 38)) ∧
      (classifyFever (normalize r) = .FEVER ↔
        (38 ≤ normalize r ∧ normalize r < 39.5)) ∧
      (classifyFever (normalize r) = .HIGH_FEVER ↔ 39.5 ≤ normalize r) ∧
      (specIsFever r = true ↔ (38 : Rat) ≤ normalize r) := by
    intro r
    have h := classifyFever_iff (normalize r)
    exact ⟨h.1, h.2.1, h.2.2.1, h.2.2.2, specIsFever_iff r⟩
  have hc1 : normalize (cReading 37.99) = (37.99 : Rat) := rfl
  have hc2 : normalize (cReading 38) = (38 : Rat) := rfl
  have hf1 : normalize (fReading 100.3) = ((100.3 : Rat) - 32) * 5 / 9 := rfl
  have hf2 : normalize (fReading 100.4) = ((100.4 : Rat) - 32) * 5 / 9 := rfl
  refine ⟨hgen, ?_, ?_, ?_, ?_, ?_, ?_, ?_, ?_⟩
  · exact (hgen (cReading 37.99)).2.1.mpr (by rw [hc1]; norm_num)
  · exact (hgen (fReading 100.3)).2.1.mpr (by rw [hf1]; norm_num)
  · exact (hgen (cReading 38)).2.2.1.mpr (by rw [hc2]; norm_num)
  · exact (hgen (fReading 100.4)).2.2.1.mpr (by rw [hf2]; norm_num)
  · have := (hgen (cReading 37.99)).2.2.2.2
    rw [hc1] at this
    rcases hb : specIsFever (cReading 37.99) with _ | _
    · rfl
    · exfalso; have := this.mp hb; norm_num at this
  · have := (hgen (fReading 100.3)).2.2.2.2
    rw [hf1] at this
    rcases hb : specIsFever (fReading 100.3) with _ | _
    · rfl
    · exfalso; have := this.mp hb; norm_num at this
  · exact (specIsFever_iff (cReading 38)).mpr (by rw [hc2])
  · exact (specIsFever_iff (fReading 100.4)).mpr (by rw [hf2]; norm_num)

/-- C6: for every Fahrenheit value, the cards' raw comparison against 100.4
agrees with the specification's rule of normalizing with C = (F - 32) * 5/9
and comparing against 38 in exact rational arithmetic. -/
theorem card_fahrenheit_fever_refines_spec :
    (∀ v : Rat, cardIsFever "°F" v = specIsFever (fReading v)) ∧
    (∀ v : Rat, ((100.4 : Rat) ≤ v ↔ (38 : Rat) ≤ (v - 32) * 5 / 9)) := by
  have hFC : ("°F" == "°C") = false := by rfl
  have hFF : ("°F" == "°F") = true := by rfl
  have key : ∀ v : Rat, ((100.4 : Rat) ≤ v ↔ (38 : Rat) ≤ (v - 32) * 5 / 9) := by
    intro v
    constructor <;> intro h <;> nlinarith
  refine ⟨?_, key⟩
  intro v
  have hn : normalize (fReading v) = (v - 32) * 5 / 9 := rfl
  have hs := specIsFever_iff (fReading v)
  rw [hn] at hs
  by_cases hv : (100.4 : Rat) ≤ v
  · have h38 : (38 : Rat) ≤ (v - 32) * 5 / 9 := (key v).mp hv
    rw [hs.mpr h38]
    simp [cardIsFever, hFC, hFF, hv]
  · have h38 : ¬ (38 : Rat) ≤ (v - 32) * 5 / 9 := fun h => hv ((key v).mpr h)
    have : specIsFever (fReading v) = false := by
      rcases hb : specIsFever (fReading v) with _ | _
      · rfl
      · exact absurd (hs.mp hb) h38
    rw [this]
    simp [cardIsFever, hFC, hFF, hv]

end MedTracker


namespace MedTracker

/-- C3: for an ungrouped medication whose last recorded dose is at instant
`d.timestamp`, next_eligible_time returns next_time = last dose + interval;
available_now is false at every instant strictly before that next time and
true at and after it (the boundary instant itself counts as available), and
the engine's availability for such a medication is exactly this
time-window result. -/
theorem ungrouped_next_eligible_boundary
    (config : List Medication) (med : Medication) (ledger : DoseLedger)
    (d : DoseRecord)
    (hgroup : med.rotation_group_id = none)
    (hlast : lastDose ledger med.id = some d) :
    ∀ now : Time,
      medAvailability config med ledger now
        = nextEligibleTime med ledger now ∧
      (nextEligibleTime med ledger now).next_time
        = some (d.timestamp + med.interval) ∧
      ((nextEligibleTime med ledger now).available_now = true ↔
        d.timestamp + med.interval ≤ now) ∧
      (now < d.timestamp + med.interval →
        (nextEligibleTime med ledger now).available_now = false) ∧
      (d.timestamp + med.interval ≤ now →
        (nextEligibleTime med ledger now).available_now = true) := by
  intro now
  have hma : medAvailability config med ledger now
      = nextEligibleTime med ledger now := by
    unfold medAvailability
    rw [hgroup]
  have hnext : nextEligibleTime med ledger now
      = { available_now := decide (d.timestamp + med.interval ≤ now),
          next_time := some (d.timestamp + med.interval) } := by
    unfold nextEligibleTime
    rw [hlast]
  refine ⟨hma, ?_, ?_, ?_, ?_⟩
  · rw [hnext]
  · rw [hnext]
    simp
  · intro h
    rw [hnext]
    show decide (d.timestamp + med.interval ≤ now) = false
    simp only [decide_eq_false_iff_not]
    exact not_le.mpr h
  · intro h
    rw [hnext]
    simp [h]

/-- Witness for C3 at the concrete ungrouped medication `medU` dosed at
08:00 with a 4-hour interval: unavailable one second before 12:00,
available at 12:00 sharp. -/
theorem ungrouped_next_eligible_boundary_witness :
    (nextEligibleTime medU [doseU] 43199).available_now = false ∧
    (nextEligibleTime medU [doseU] 43200).available_now = true ∧
    (nextEligibleTime medU [doseU] 43200).next_time = some 43200 := by
  have h1 := ungrouped_next_eligible_boundary [medU] medU [doseU] doseU rfl rfl 43199
  have h2 := ungrouped_next_eligible_boundary [medU] medU [doseU] doseU rfl rfl 43200
  refine ⟨h1.2.2.2.1 (by decide), h2.2.2.2.2 (by decide), h2.2.1.trans rfl⟩

end MedTracker

namespace MedTracker

theorem countInWindow_nil (med : Medication) (now : Time) :
    countInWindow med [] now = 0 := by
  unfold countInWindow
  cases h : med.window_duration <;> simp [h]

theorem candidateFloors_nil (config : List Medication) (m : Medication) :
    candidateFloors config m [] = [] := by
  unfold candidateFloors
  rw [List.filterMap_eq_nil_iff]
  intro n hn
  rfl

theorem medAvailability_nil (config : List Medication) (med : Medication)
    (now : Time) :
    medAvailability config med [] now
      = { available_now := true, next_time := none } := by
  unfold medAvailability
  cases hg : med.rotation_group_id with
  | none => rfl
  | some g =>
      show resolveNextTime config med [] now = _
      unfold resolveNextTime
      rw [candidateFloors_nil]
      rfl

theorem classifySafety_unset (med : Medication) (ledger : DoseLedger)
    (now : Time)
    (h : med.window_duration = none ∨ med.max_doses_in_window = none) :
    classifySafety med ledger now = .OK := by
  unfold classifySafety
  rcases h with h | h
  · rw [h]
  · rw [h]
    rcases hw : med.window_duration with _ | w <;> rfl

theorem classifySafety_set (med : Medication) (ledger : DoseLedger)
    (now : Time) (w : Time) (mx : Nat)
    (hw : med.window_duration = some w)
    (hm : med.max_doses_in_window = some mx) :
    classifySafety med ledger now
      = (if countInWindow med ledger now + 1 < mx then .OK
         else if countInWindow med ledger now + 1 = mx then .APPROACHING_LIMIT
         else if countInWindow med ledger now = mx then .AT_LIMIT
         else .EXCEEDED) := by
  unfold classifySafety
  rw [hw, hm]

theorem mem_getSchedule (config : List Medication) (patient : String)
    (ledger : DoseLedger) (now : Time) (med : Medication)
    (hmem : med ∈ config) (hpat : med.patient_id = patient)
    (hact : med.active = true) :
    (med.id, scheduleResultFor config med ledger now)
      ∈ getSchedule config patient ledger now := by
  unfold getSchedule
  exact List.mem_map_of_mem _ (List.mem_filter.mpr ⟨hmem, by simp [hpat, hact]⟩)

end MedTracker

namespace MedTracker

/-- C4 counterexample: `medWin1` has the window rule 24 h / max 1 dose, which
the data-model invariant (max_doses_in_window at least 1) allows; on an empty
ledger its count is 0 = max - 1, so section 4.3 classifies it
APPROACHING_LIMIT, contradicting the claim that every active medication of a
patient with empty ledgers reports safety_level = OK. -/
theorem empty_schedule_not_all_ok :
    getSchedule [medWin1] "p1" [] 0
      = [("once",
          { available_now := true, next_time := none,
            safety_level := .APPROACHING_LIMIT,
            last_dose_time := none, last_dose_amount := none })] ∧
    ¬ (∀ e ∈ getSchedule [medWin1] "p1" [] (0 : Time),
        e.2.safety_level = SafetyLevel.OK) := by
  refine ⟨rfl, ?_⟩
  intro h
  have hmem : ("once",
      ({ available_now := true, next_time := none,
         safety_level := .APPROACHING_LIMIT,
         last_dose_time := none, last_dose_amount := none } : ScheduleResult))
      ∈ getSchedule [medWin1] "p1" [] (0 : Time) := by
    rw [show getSchedule [medWin1] "p1" [] (0 : Time)
        = [("once",
            { available_now := true, next_time := none,
              safety_level := .APPROACHING_LIMIT,
              last_dose_time := none, last_dose_amount := none })] from rfl]
    exact List.mem_singleton.mpr rfl
  have := h _ hmem
  simp at this

/-- C4 amended: a medication with no recorded dose is available now with a
null next time; for a patient with empty ledgers, get_schedule reports every
active medication as available_now = true with a null next time, and its
safety_level is OK whenever the window rule is unset or allows at least two
doses — a medication whose window rule allows exactly one dose is instead
reported APPROACHING_LIMIT on the empty ledger. -/
theorem empty_ledger_schedule :
    (∀ (med : Medication) (ledger : DoseLedger) (now : Time),
      lastDose ledger med.id = none →
      nextEligibleTime med ledger now
        = { available_now := true, next_time := none }) ∧
    (∀ (config : List Medication) (patient : String) (now : Time)
        (med : Medication),
      med ∈ config → med.patient_id = patient → med.active = true →
      (med.id, scheduleResultFor config med [] now)
          ∈ getSchedule config patient [] now ∧
      (scheduleResultFor config med [] now).available_now = true ∧
      (scheduleResultFor config med [] now).next_time = none ∧
      (scheduleResultFor config med [] now).last_dose_time = none ∧
      ((med.window_duration = none ∨ med.max_doses_in_window = none) →
        (scheduleResultFor config med [] now).safety_level = .OK) ∧
      (∀ w mx, med.window_duration = some w →
        med.max_doses_in_window = some mx → 2 ≤ mx →
        (scheduleResultFor config med [] now).safety_level = .OK) ∧
      (∀ w, med.window_duration = some w →
        med.max_doses_in_window = some 1 →
        (scheduleResultFor config med [] now).safety_level
          = .APPROACHING_LIMIT)) := by
  constructor
  · intro med ledger now hnone
    unfold nextEligibleTime
    rw [hnone]
  · intro config patient now med hmem hpat hact
    have hav := medAvailability_nil config med now
    have hld : lastDose [] med.id = none := rfl
    refine ⟨mem_getSchedule config patient [] now med hmem hpat hact,
      ?_, ?_, ?_, ?_, ?_, ?_⟩
    · show (medAvailability config med [] now).available_now = true
      rw [hav]
    · show (medAvailability config med [] now).next_time = none
      rw [hav]
    · show (lastDose [] med.id).map (fun d => d.timestamp) = none
      rw [hld]
      rfl
    · intro h
      exact classifySafety_unset med [] now h
    · intro w mx hw hm hmx
      show classifySafety med [] now = .OK
      rw [classifySafety_set med [] now w mx hw hm, countInWindow_nil]
      have : 0 + 1 < mx := by omega
      rw [if_pos this]
    · intro w hw hm
      show classifySafety med [] now = .APPROACHING_LIMIT
      rw [classifySafety_set med [] now w 1 hw hm, countInWindow_nil]
      norm_num

/-- Witness for the amended C4 at the concrete safety-rule medication
`exMedSafety` (window 24 h, max 4 doses) on the empty ledger. -/
theorem empty_ledger_schedule_witness :
    nextEligibleTime exMedSafety [] 0
      = { available_now := true, next_time := none } ∧
    ("tylenol", scheduleResultFor [exMedSafety] exMedSafety [] 0)
      ∈ getSchedule [exMedSafety] "p1" [] 0 ∧
    (scheduleResultFor [exMedSafety] exMedSafety [] 0).available_now = true ∧
    (scheduleResultFor [exMedSafety] exMedSafety [] 0).next_time = none ∧
    (scheduleResultFor [exMedSafety] exMedSafety [] 0).safety_level = .OK := by
  have h1 := empty_ledger_schedule.1 exMedSafety [] 0 rfl
  have h2 := empty_ledger_schedule.2 [exMedSafety] "p1" 0 exMedSafety
    (List.mem_singleton.mpr rfl) rfl rfl
  exact ⟨h1, h2.1, h2.2.1, h2.2.2.1,
    h2.2.2.2.2.2.1 86400 4 rfl rfl (by decide)⟩

end MedTracker

namespace MedTracker

/-- C1: with the window rule unset the classification is always OK; with it
set (max at least 1, as the data-model invariant requires) the level is a
function of count = count_in_window and max alone: OK below max - 1,
APPROACHING_LIMIT at exactly max - 1, and at count ≥ max either AT_LIMIT
(count exactly max: a hypothetical dose right now) or EXCEEDED (count
strictly above max: a dose beyond the limit was already recorded). -/
theorem safety_classification_rule :
    (∀ (med : Medication) (ledger : DoseLedger) (now : Time),
      (med.window_duration = none ∨ med.max_doses_in_window = none) →
      classifySafety med ledger now = .OK) ∧
    (∀ (med : Medication) (ledger : DoseLedger) (now : Time)
        (w : Time) (mx : Nat),
      med.window_duration = some w → med.max_doses_in_window = some mx →
      1 ≤ mx →
      (classifySafety med ledger now = .OK ↔
        countInWindow med ledger now < mx - 1) ∧
      (classifySafety med ledger now = .APPROACHING_LIMIT ↔
        countInWindow med ledger now = mx - 1) ∧
      ((classifySafety med ledger now = .AT_LIMIT ∨
          classifySafety med ledger now = .EXCEEDED) ↔
        mx ≤ countInWindow med ledger now) ∧
      (classifySafety med ledger now = .AT_LIMIT ↔
        countInWindow med ledger now = mx) ∧
      (classifySafety med ledger now = .EXCEEDED ↔
        mx < countInWindow med ledger now)) := by
  constructor
  · intro med ledger now h
    exact classifySafety_unset med ledger now h
  · intro med ledger now w mx hw hm hmx
    rw [classifySafety_set med ledger now w mx hw hm]
    split_ifs with h1 h2 h3 <;>
      refine ⟨?_, ?_, ?_, ?_, ?_⟩ <;> simp <;> omega

/-- Witness for C1 at the spec's example: window 24 h, max 4 doses; with 3
doses in the window the classification is APPROACHING_LIMIT, with 4 it is
AT_LIMIT, with 5 it is EXCEEDED. -/
theorem safety_classification_rule_witness :
    classifySafety exMedSafety exLedger3 100000 = .APPROACHING_LIMIT ∧
    classifySafety exMedSafety exLedger4 100000 = .AT_LIMIT ∧
    classifySafety exMedSafety exLedger5 100000 = .EXCEEDED := by
  have h3 := (safety_classification_rule.2 exMedSafety exLedger3 100000
    86400 4 rfl rfl (by decide)).2.1
  have h4 := (safety_classification_rule.2 exMedSafety exLedger4 100000
    86400 4 rfl rfl (by decide)).2.2.2.1
  have h5 := (safety_classification_rule.2 exMedSafety exLedger5 100000
    86400 4 rfl rfl (by decide)).2.2.2.2
  exact ⟨h3.mpr rfl, h4.mpr rfl, h5.mpr (by decide)⟩

end MedTracker

namespace MedTracker

/-- C7: once an append for a medication has succeeded, a second append for
the same medication with a timestamp within the idempotency epsilon fails
with DuplicateDose, so exactly the one original record is stored (the
failing call produces no ledger and the original stands); a second append
farther apart than epsilon from the first record and from every earlier
record of that medication succeeds as a distinct appended record. -/
theorem duplicate_dose_idempotency
    (ledger : DoseLedger) (d1 d2 : DoseRecord)
    (hmed : d2.medication_id = d1.medication_id)
    (hfirst : ledgerAppend ledger d1 = .ok (ledger ++ [d1])) :
    ((d1.timestamp - d2.timestamp).natAbs ≤ idempotencyEpsilon →
      ledgerAppend (ledger ++ [d1]) d2 = .error .DuplicateDose) ∧
    (idempotencyEpsilon < (d1.timestamp - d2.timestamp).natAbs →
      (∀ r ∈ ledger, r.medication_id = d2.medication_id →
        idempotencyEpsilon < (r.timestamp - d2.timestamp).natAbs) →
      ledgerAppend (ledger ++ [d1]) d2 = .ok (ledger ++ [d1] ++ [d2])) := by
  constructor
  · intro hclose
    have hdup : hasDuplicate (ledger ++ [d1]) d2 = true := by
      unfold hasDuplicate
      rw [List.any_eq_true]
      refine ⟨d1, by simp, ?_⟩
      simp [hmed, hclose]
    unfold ledgerAppend
    rw [hdup]
    rfl
  · intro hfar hrest
    have hdup : hasDuplicate (ledger ++ [d1]) d2 = false := by
      unfold hasDuplicate
      rw [List.any_eq_false]
      intro r hr
      rcases List.mem_append.mp hr with hr | hr
      · by_cases hid : r.medication_id = d2.medication_id
        · have := hrest r hr hid
          simp [hid]
          omega
        · simp [hid]
      · have hr1 : r = d1 := List.mem_singleton.mp hr
        subst hr1
        simp [hmed]
        omega
    unfold ledgerAppend
    rw [hdup]
    rfl

/-- Witness for C7: on a ledger holding one dose at instant 1000, a second
dose of the same medication at 1001 (within the 1-second epsilon) is
rejected as DuplicateDose, while one at 1003 is appended as a distinct
record. -/
theorem duplicate_dose_idempotency_witness :
    ledgerAppend [exDose 1 1000] (exDose 2 1001) = .error .DuplicateDose ∧
    ledgerAppend [exDose 1 1000] (exDose 3 1003)
      = .ok [exDose 1 1000, exDose 3 1003] := by
  have hclose := (duplicate_dose_idempotency [] (exDose 1 1000) (exDose 2 1001)
    rfl rfl).1 (by decide)
  have hfar := (duplicate_dose_idempotency [] (exDose 1 1000) (exDose 3 1003)
    rfl rfl).2 (by decide) (by intro r hr; simp at hr)
  exact ⟨hclose, hfar⟩

end MedTracker

namespace MedTracker

theorem foldMaxTime_some (a : Time) (ts : List Time) :
    foldMaxTime (some a) ts = some (ts.foldl max a) := by
  induction ts generalizing a with
  | nil => rfl
  | cons t ts ih =>
      show foldMaxTime (some (max a t)) ts = some (List.foldl max (max a t) ts)
      exact ih (max a t)

theorem foldMaxTime_none_cons (t : Time) (ts : List Time) :
    foldMaxTime none (t :: ts) = foldMaxTime (some t) ts := rfl

theorem le_foldl_max (a : Time) (ts : List Time) : a ≤ ts.foldl max a := by
  induction ts generalizing a with
  | nil => exact le_refl a
  | cons t ts ih => exact le_trans (le_max_left a t) (ih (max a t))

theorem mem_le_foldl_max (ts : List Time) (a : Time) :
    ∀ u ∈ ts, u ≤ ts.foldl max a := by
  induction ts generalizing a with
  | nil => intro u hu; cases hu
  | cons t ts ih =>
      intro u hu
      rcases List.mem_cons.mp hu with rfl | hu
      · exact le_trans (le_max_right a u) (le_foldl_max (max a u) ts)
      · exact ih (max a t) u hu

theorem foldl_max_mem (ts : List Time) (a : Time) :
    ts.foldl max a = a ∨ ts.foldl max a ∈ ts := by
  induction ts generalizing a with
  | nil => left; rfl
  | cons t ts ih =>
      show List.foldl max (max a t) ts = a ∨ List.foldl max (max a t) ts ∈ t :: ts
      rcases ih (max a t) with h | h
      · rcases max_choice a t with hc | hc
        · left; rw [h, hc]
        · right; rw [h, hc]; exact List.mem_cons_self t ts
      · right; exact List.mem_cons_of_mem t h

end MedTracker

namespace MedTracker

theorem foldMaxTime_cases (init : Option Time) (ts : List Time) :
    (foldMaxTime init ts = none ↔ init = none ∧ ts = []) ∧
    (∀ T, foldMaxTime init ts = some T →
      (init = some T ∨ T ∈ ts) ∧
      (∀ u, init = some u → u ≤ T) ∧
      (∀ u ∈ ts, u ≤ T)) := by
  cases init with
  | none =>
      cases ts with
      | nil =>
          refine ⟨by simp [foldMaxTime], ?_⟩
          intro T h
          cases h
      | cons t ts =>
          rw [foldMaxTime_none_cons, foldMaxTime_some]
          constructor
          · simp
          · intro T h
            injection h with h
            subst h
            refine ⟨?_, ?_, ?_⟩
            · right
              rcases foldl_max_mem ts t with h' | h'
              · rw [h']
                exact List.mem_cons_self t ts
              · exact List.mem_cons_of_mem t h'
            · intro u hu
              cases hu
            · intro u hu
              rcases List.mem_cons.mp hu with rfl | hu
              · exact le_foldl_max u ts
              · exact mem_le_foldl_max ts t u hu
  | some a =>
      rw [foldMaxTime_some]
      constructor
      · simp
      · intro T h
        injection h with h
        subst h
        refine ⟨?_, ?_, ?_⟩
        · rcases foldl_max_mem ts a with h' | h'
          · left
            rw [h']
          · right
            exact h'
        · intro u hu
          injection hu with hu
          subst hu
          exact le_foldl_max a ts
        · exact mem_le_foldl_max ts a

/-- C2: for a grouped medication M the resolved result is the least upper
bound of M's own interval-based next-eligible time and the candidate floors
contributed by the other active group members (each member's last dose plus
the stricter of the two configured gaps): the resolved next_time is one of
those constraints, dominates all of them, is null exactly when there is no
constraint at all, and available_now holds exactly when the resolved time
has been reached. -/
theorem rotation_next_time_is_max :
    ∀ (config : List Medication) (m : Medication) (ledger : DoseLedger)
      (now : Time),
      ((resolveNextTime config m ledger now).next_time = none ↔
        (nextEligibleTime m ledger now).next_time = none ∧
        candidateFloors config m ledger = []) ∧
      (∀ T, (resolveNextTime config m ledger now).next_time = some T →
        ((nextEligibleTime m ledger now).next_time = some T ∨
          T ∈ candidateFloors config m ledger) ∧
        (∀ u, (nextEligibleTime m ledger now).next_time = some u → u ≤ T) ∧
        (∀ u ∈ candidateFloors config m ledger, u ≤ T)) ∧
      ((resolveNextTime config m ledger now).available_now = true ↔
        ∀ T, (resolveNextTime config m ledger now).next_time = some T →
          T ≤ now) := by
  intro config m ledger now
  have hfc := foldMaxTime_cases (nextEligibleTime m ledger now).next_time
    (candidateFloors config m ledger)
  cases hfm : foldMaxTime (nextEligibleTime m ledger now).next_time
      (candidateFloors config m ledger) with
  | none =>
      have hr : resolveNextTime config m ledger now
          = { available_now := true, next_time := none } := by
        unfold resolveNextTime
        rw [hfm]
      rw [hr]
      refine ⟨?_, ?_, ?_⟩
      · simpa using hfc.1.mp hfm
      · intro T hT
        cases hT
      · simp
  | some T0 =>
      have hr : resolveNextTime config m ledger now
          = { available_now := decide (T0 ≤ now), next_time := some T0 } := by
        unfold resolveNextTime
        rw [hfm]
      rw [hr]
      refine ⟨?_, ?_, ?_⟩
      · constructor
        · intro h
          exact Option.noConfusion h
        · rintro ⟨hnone, hnil⟩
          rw [hnone, hnil] at hfm
          exact Option.noConfusion hfm
      · intro T hT
        injection hT with hT
        subst hT
        exact hfc.2 T0 hfm
      · constructor
        · intro hd T hT
          injection hT with hT
          subst hT
          exact of_decide_eq_true hd
        · intro hall
          exact decide_eq_true (hall T0 rfl)

/-- Witness for C2 at the spec's rotation example: A and B share a group
with 3-hour gaps and 4-hour intervals, A dosed at 08:00 and B at 09:00;
A resolves to 12:00 and B to 13:00, A is unavailable at 10:00 and
available at 12:00, and 13:00 dominates all of B's candidate floors. -/
theorem rotation_next_time_is_max_witness :
    (resolveNextTime exConfigAB medA exLedgerAB 36000).next_time
      = some 43200 ∧
    (resolveNextTime exConfigAB medB exLedgerAB 36000).next_time
      = some 46800 ∧
    ((nextEligibleTime medA exLedgerAB 36000).next_time = some 43200 ∨
      (43200 : Time) ∈ candidateFloors exConfigAB medA exLedgerAB) ∧
    (∀ u ∈ candidateFloors exConfigAB medB exLedgerAB, u ≤ (46800 : Time)) ∧
    (resolveNextTime exConfigAB medA exLedgerAB 36000).available_now
      = false ∧
    (resolveNextTime exConfigAB medA exLedgerAB 43200).available_now
      = true := by
  refine ⟨rfl, rfl, ?_, ?_, rfl, rfl⟩
  · exact ((rotation_next_time_is_max exConfigAB medA exLedgerAB 36000).2.1
      43200 rfl).1
  · exact ((rotation_next_time_is_max exConfigAB medB exLedgerAB 36000).2.1
      46800 rfl).2.2

end MedTracker

namespace MedTracker

theorem lastDoseStep_skip (mid : String) (acc : Option DoseRecord)
    (r : DoseRecord) (hr : r.medication_id ≠ mid) :
    lastDoseStep mid acc r = acc := by
  unfold lastDoseStep
  rw [if_neg (by simp [hr])]

theorem lastDoseStep_none (mid : String) (r : DoseRecord)
    (hr : r.medication_id = mid) :
    lastDoseStep mid none r = some r := by
  unfold lastDoseStep
  rw [if_pos (by simp [hr])]

theorem lastDoseStep_some_le (mid : String) (r b0 : DoseRecord)
    (hr : r.medication_id = mid) (hts : b0.timestamp ≤ r.timestamp) :
    lastDoseStep mid (some b0) r = some r := by
  unfold lastDoseStep
  rw [if_pos (by simp [hr])]
  show (if b0.timestamp ≤ r.timestamp then some r else some b0) = some r
  rw [if_pos hts]

theorem lastDoseStep_some_gt (mid : String) (r b0 : DoseRecord)
    (hr : r.medication_id = mid) (hts : ¬ b0.timestamp ≤ r.timestamp) :
    lastDoseStep mid (some b0) r = some b0 := by
  unfold lastDoseStep
  rw [if_pos (by simp [hr])]
  show (if b0.timestamp ≤ r.timestamp then some r else some b0) = some b0
  rw [if_neg hts]

theorem lastDose_inv (mid : String) :
    ∀ (ledger : DoseLedger) (acc : Option DoseRecord) (b : DoseRecord),
      ledger.foldl (lastDoseStep mid) acc = some b →
      (b ∈ ledger ∧ b.medication_id = mid) ∨ acc = some b := by
  intro ledger
  induction ledger with
  | nil =>
      intro acc b h
      right
      exact h
  | cons r rest ih =>
      intro acc b h
      rw [List.foldl_cons] at h
      rcases ih (lastDoseStep mid acc r) b h with ⟨hmem, hm⟩ | hacc
      · left
        exact ⟨List.mem_cons_of_mem r hmem, hm⟩
      · by_cases hr : r.medication_id = mid
        · cases acc with
          | none =>
              rw [lastDoseStep_none mid r hr] at hacc
              injection hacc with hacc
              subst hacc
              left
              exact ⟨List.mem_cons_self r rest, hr⟩
          | some b0 =>
              by_cases hts : b0.timestamp ≤ r.timestamp
              · rw [lastDoseStep_some_le mid r b0 hr hts] at hacc
                injection hacc with hacc
                subst hacc
                left
                exact ⟨List.mem_cons_self r rest, hr⟩
              · rw [lastDoseStep_some_gt mid r b0 hr hts] at hacc
                right
                exact hacc
        · rw [lastDoseStep_skip mid acc r hr] at hacc
          right
          exact hacc

theorem lastDose_mem (ledger : DoseLedger) (mid : String) (b : DoseRecord)
    (h : lastDose ledger mid = some b) :
    b ∈ ledger ∧ b.medication_id = mid := by
  rcases lastDose_inv mid ledger none b h with h' | h'
  · exact h'
  · exact Option.noConfusion h'

theorem lastDose_append_newest (ledger : DoseLedger) (d : DoseRecord)
    (hnew : ∀ r ∈ ledger, r.medication_id = d.medication_id →
      r.timestamp ≤ d.timestamp) :
    lastDose (ledger ++ [d]) d.medication_id = some d := by
  have h1 : lastDose (ledger ++ [d]) d.medication_id
      = lastDoseStep d.medication_id (lastDose ledger d.medication_id) d := by
    unfold lastDose
    rw [List.foldl_append]
    rfl
  rw [h1]
  cases hld : lastDose ledger d.medication_id with
  | none => exact lastDoseStep_none d.medication_id d rfl
  | some b =>
      have hb := lastDose_mem ledger d.medication_id b hld
      exact lastDoseStep_some_le d.medication_id d b rfl (hnew b hb.1 hb.2)

end MedTracker

namespace MedTracker

/-- C8: the schedule read model is a pure function of ledger state,
configuration and clock — two reads over identical ledger states at the same
instant are identical — and a read performed after a successful dose append
reflects the appended record: the medication's entry reports the new dose as
the last dose and re-derives next_time and available_now from it. -/
theorem schedule_fresh_after_append
    (config : List Medication) (patient : String) (now : Time)
    (m : Medication) (ledger : DoseLedger) (d : DoseRecord)
    (hmid : d.medication_id = m.id)
    (happend : ledgerAppend ledger d = .ok (ledger ++ [d]))
    (hmem : m ∈ config) (hpat : m.patient_id = patient)
    (hact : m.active = true) (hgrp : m.rotation_group_id = none)
    (hnewest : ∀ r ∈ ledger, r.medication_id = m.id →
      r.timestamp ≤ d.timestamp) :
    (∀ l1 l2 : DoseLedger, l1 = l2 →
      getSchedule config patient l1 now = getSchedule config patient l2 now) ∧
    (m.id, scheduleResultFor config m (ledger ++ [d]) now)
        ∈ getSchedule config patient (ledger ++ [d]) now ∧
    (scheduleResultFor config m (ledger ++ [d]) now).last_dose_time
      = some d.timestamp ∧
    (scheduleResultFor config m (ledger ++ [d]) now).last_dose_amount
      = some d.amount ∧
    (scheduleResultFor config m (ledger ++ [d]) now).next_time
      = some (d.timestamp + m.interval) ∧
    ((scheduleResultFor config m (ledger ++ [d]) now).available_now = true ↔
      d.timestamp + m.interval ≤ now) := by
  have hld : lastDose (ledger ++ [d]) m.id = some d := by
    rw [← hmid]
    exact lastDose_append_newest ledger d
      (fun r hr hh => hnewest r hr (hh.trans hmid))
  have hnext : nextEligibleTime m (ledger ++ [d]) now
      = { available_now := decide (d.timestamp + m.interval ≤ now),
          next_time := some (d.timestamp + m.interval) } := by
    unfold nextEligibleTime
    rw [hld]
  have hav : medAvailability config m (ledger ++ [d]) now
      = nextEligibleTime m (ledger ++ [d]) now := by
    unfold medAvailability
    rw [hgrp]
  refine ⟨fun l1 l2 h => by rw [h],
    mem_getSchedule config patient (ledger ++ [d]) now m hmem hpat hact,
    ?_, ?_, ?_, ?_⟩
  · show (lastDose (ledger ++ [d]) m.id).map (fun x => x.timestamp)
      = some d.timestamp
    rw [hld]
    rfl
  · show (lastDose (ledger ++ [d]) m.id).map (fun x => x.amount)
      = some d.amount
    rw [hld]
    rfl
  · show (medAvailability config m (ledger ++ [d]) now).next_time
      = some (d.timestamp + m.interval)
    rw [hav, hnext]
  · show (medAvailability config m (ledger ++ [d]) now).available_now = true ↔
      d.timestamp + m.interval ≤ now
    rw [hav, hnext]
    simp

/-- Witness for C8: appending `doseU` (08:00) to the empty ledger makes the
schedule read at 10:00 report it as the last dose with next_time 12:00,
not yet available. -/
theorem schedule_fresh_after_append_witness :
    ("U", scheduleResultFor [medU] medU [doseU] 36000)
      ∈ getSchedule [medU] "p1" [doseU] 36000 ∧
    (scheduleResultFor [medU] medU [doseU] 36000).last_dose_time
      = some 28800 ∧
    (scheduleResultFor [medU] medU [doseU] 36000).next_time = some 43200 ∧
    (scheduleResultFor [medU] medU [doseU] 36000).available_now = false := by
  have h := schedule_fresh_after_append [medU] "p1" 36000 medU [] doseU rfl rfl
    (List.mem_singleton.mpr rfl) rfl rfl rfl (by intro r hr; cases hr)
  exact ⟨h.2.1, h.2.2.1, h.2.2.2.2.1, rfl⟩

end MedTracker

namespace MedTracker

/-- C9: SickModeCard.setConfig throws exactly when the configuration is
absent or carries no (truthy) patient_id and stores the configuration
otherwise; MedicationTrackerCard.setConfig throws exactly when the
configuration is absent; in both cards a throwing call leaves the previously
stored configuration unchanged. -/
theorem setConfig_validation :
    ∀ (stored : Option CardConfig) (config : Option CardConfig),
      ((sickModeSetConfig stored config).error = none ↔
        ∃ c, config = some c ∧ truthyStr c.patient_id = true) ∧
      ((sickModeSetConfig stored config).error ≠ none →
        (sickModeSetConfig stored config).stored = stored) ∧
      (∀ c, config = some c → truthyStr c.patient_id = true →
        (sickModeSetConfig stored config).stored = some c) ∧
      ((medicationTrackerSetConfig stored config).error = none ↔
        config ≠ none) ∧
      ((medicationTrackerSetConfig stored config).error ≠ none →
        (medicationTrackerSetConfig stored config).stored = stored) ∧
      (∀ c, config = some c →
        (medicationTrackerSetConfig stored config).stored = some c) := by
  intro stored config
  cases config with
  | none =>
      refine ⟨?_, ?_, ?_, ?_, ?_, ?_⟩ <;>
        simp [sickModeSetConfig, medicationTrackerSetConfig]
  | some c =>
      by_cases hp : truthyStr c.patient_id = true
      · refine ⟨?_, ?_, ?_, ?_, ?_, ?_⟩ <;>
          simp [sickModeSetConfig, medicationTrackerSetConfig, hp]
      · refine ⟨?_, ?_, ?_, ?_, ?_, ?_⟩ <;>
          simp [sickModeSetConfig, medicationTrackerSetConfig, hp]

/-- Witness for C9: with a previously stored configuration for patient "p1",
a missing configuration and one lacking a patient_id throw and leave the
store unchanged in the sick-mode card, a configuration with patient_id "p2"
is stored by both cards, and the medication-tracker card accepts a
configuration without patient_id. -/
theorem setConfig_validation_witness :
    (sickModeSetConfig (some { patient_id := some "p1", title := none }) none).stored
      = some { patient_id := some "p1", title := none } ∧
    (sickModeSetConfig (some { patient_id := some "p1", title := none })
        (some { patient_id := none, title := none })).stored
      = some { patient_id := some "p1", title := none } ∧
    (sickModeSetConfig (some { patient_id := some "p1", title := none })
        (some { patient_id := some "p2", title := none })).stored
      = some { patient_id := some "p2", title := none } ∧
    (medicationTrackerSetConfig (some { patient_id := some "p1", title := none })
        (some { patient_id := none, title := none })).stored
      = some { patient_id := none, title := none } := by
  have h1 := setConfig_validation
    (some { patient_id := some "p1", title := none }) none
  have h2 := setConfig_validation
    (some { patient_id := some "p1", title := none })
    (some { patient_id := none, title := none })
  have h3 := setConfig_validation
    (some { patient_id := some "p1", title := none })
    (some { patient_id := some "p2", title := none })
  refine ⟨h1.2.1 (by simp [sickModeSetConfig]), ?_, ?_, ?_⟩
  · exact h2.2.1 (by simp [sickModeSetConfig, truthyStr])
  · exact h3.2.2.1 _ rfl (by simp [truthyStr])
  · exact h2.2.2.2.2.2 _ rfl

end MedTracker

namespace MedTracker

theorem sortedScheduleRows_pairwise (meds : List CardMedication) :
    (sortedScheduleRows meds).Pairwise (fun a b => a.time ≤ b.time) := by
  have htrans : ∀ a b c : ScheduleItem,
      decide (a.time ≤ b.time) = true → decide (b.time ≤ c.time) = true →
      decide (a.time ≤ c.time) = true := fun a b c h1 h2 =>
    decide_eq_true (le_trans (of_decide_eq_true h1) (of_decide_eq_true h2))
  have htotal : ∀ a b : ScheduleItem,
      (decide (a.time ≤ b.time) || decide (b.time ≤ a.time)) = true := by
    intro a b
    rcases le_total a.time b.time with h | h <;> simp [h]
  have h := List.sorted_mergeSort htrans htotal (scheduleRows meds)
  exact h.imp (fun hab => of_decide_eq_true hab)

theorem sortedScheduleRows_perm (meds : List CardMedication) :
    (sortedScheduleRows meds).Perm (scheduleRows meds) :=
  List.mergeSort_perm (scheduleRows meds) (fun a b => decide (a.time ≤ b.time))

theorem scheduleRows_eq_nil_iff (meds : List CardMedication) :
    scheduleRows meds = [] ↔ ∀ med ∈ meds, med.nextDose.next_time = none := by
  unfold scheduleRows
  rw [List.filterMap_eq_nil_iff]
  constructor
  · intro h med hmed
    exact Option.map_eq_none'.mp (h med hmed)
  · intro h med hmed
    rw [h med hmed]
    rfl

theorem sortedScheduleRows_eq_nil_iff (meds : List CardMedication) :
    sortedScheduleRows meds = [] ↔
      ∀ med ∈ meds, med.nextDose.next_time = none := by
  rw [← scheduleRows_eq_nil_iff]
  constructor
  · intro h
    have hp := sortedScheduleRows_perm meds
    rw [h] at hp
    exact (List.Perm.nil_eq hp).symm
  · intro h
    unfold sortedScheduleRows
    rw [h]
    exact List.mergeSort_nil

/-- C10: the rendered medication schedule is the no-data placeholder exactly
for an empty medication list; for a nonempty list it is the "all medications
available now" placeholder exactly when every medication's
`nextDose.next_time` is null; otherwise it renders a nonempty grid whose
rows are exactly the medications with a non-null next_time (one row each),
in ascending order of that time. -/
theorem render_schedule_spec :
    ∀ meds : List CardMedication,
      (renderMedicationSchedule meds = .noMeds ↔ meds = []) ∧
      (meds ≠ [] →
        (renderMedicationSchedule meds = .allAvailable ↔
          ∀ med ∈ meds, med.nextDose.next_time = none)) ∧
      (∀ items, renderMedicationSchedule meds = .schedule items →
        items ≠ [] ∧
        items.Pairwise (fun a b => a.time ≤ b.time) ∧
        items.Perm (scheduleRows meds)) := by
  intro meds
  cases meds with
  | nil =>
      refine ⟨⟨fun _ => rfl, fun _ => rfl⟩, fun h => absurd rfl h, ?_⟩
      intro items hit
      exact ScheduleRender.noConfusion hit
  | cons m0 ms =>
      have hr : renderMedicationSchedule (m0 :: ms)
          = if (sortedScheduleRows (m0 :: ms)).isEmpty then .allAvailable
            else .schedule (sortedScheduleRows (m0 :: ms)) := by
        unfold renderMedicationSchedule
        rw [if_neg (by simp)]
      refine ⟨?_, ?_, ?_⟩
      · rw [hr]
        constructor
        · intro h
          by_cases hs : (sortedScheduleRows (m0 :: ms)).isEmpty = true
          · rw [if_pos hs] at h
            exact ScheduleRender.noConfusion h
          · rw [if_neg hs] at h
            exact ScheduleRender.noConfusion h
        · intro h
          exact List.noConfusion h
      · intro hne
        rw [hr]
        constructor
        · intro h
          by_cases hs : (sortedScheduleRows (m0 :: ms)).isEmpty = true
          · exact (sortedScheduleRows_eq_nil_iff (m0 :: ms)).mp
              (List.isEmpty_eq_true.mp hs)
          · rw [if_neg hs] at h
            exact ScheduleRender.noConfusion h
        · intro h
          rw [if_pos (List.isEmpty_eq_true.mpr
            ((sortedScheduleRows_eq_nil_iff (m0 :: ms)).mpr h))]
      · intro items hit
        rw [hr] at hit
        by_cases hs : (sortedScheduleRows (m0 :: ms)).isEmpty = true
        · rw [if_pos hs] at hit
          exact ScheduleRender.noConfusion hit
        · rw [if_neg hs] at hit
          have hitems : sortedScheduleRows (m0 :: ms) = items := by
            injection hit
          refine ⟨?_, ?_, ?_⟩
          · intro h0
            rw [h0] at hitems
            exact hs (by rw [hitems]; rfl)
          · rw [← hitems]
            exact sortedScheduleRows_pairwise (m0 :: ms)
          · rw [← hitems]
            exact sortedScheduleRows_perm (m0 :: ms)

/-- Witness for C10: the example medication list with two pending next
times renders a schedule grid (neither placeholder), and the list whose
next times are all null renders the "all medications available now"
placeholder. -/
theorem render_schedule_spec_witness :
    renderMedicationSchedule exCardMedsAllAvail = .allAvailable ∧
    renderMedicationSchedule [] = .noMeds ∧
    renderMedicationSchedule exCardMeds ≠ .noMeds ∧
    renderMedicationSchedule exCardMeds ≠ .allAvailable := by
  have h1 := render_schedule_spec exCardMedsAllAvail
  have h2 := render_schedule_spec exCardMeds
  refine ⟨(h1.2.1 (by decide)).mpr (by decide),
    (render_schedule_spec []).1.mpr rfl, ?_, ?_⟩
  · intro h
    exact absurd (h2.1.mp h) (by decide)
  · intro h
    exact absurd ((h2.2.1 (by decide)).mp h) (by decide)

end MedTracker
